import Mathlib

/-!
# Verification of `geonetworkx.tools` (spatial point / graph merge)

Shallow embedding of `src/geonetworkx/tools.py`.

Modelling conventions:
* Coordinates and distances are exact integers (`ℤ`).  The source works with
  Python floats; every claim under verification is a control-flow or structural
  property that only passes scalar values through comparisons, subtraction and
  the external geometry collaborators, so any linearly ordered commutative ring
  is a faithful stand-in and `ℤ` keeps every statement decidable.
* The geometry primitives (length, projection, interpolation, line splitting,
  euclidean distance, nearest-line search, two-point line construction) are
  external collaborators per the specification; they are gathered in a
  `GeoOps` record over an abstract `Line` type, and theorems quantify over it.
* Stateful networkx graph mutation is modelled by explicit state passing: a
  function that mutates its graph argument in place returns the new graph
  value, and the `inplace` wrappers return the pair
  (caller's graph after the call, returned value).
-/

namespace Geonetworkx

/-- A 2D coordinate, as stored under a graph node's `x`/`y` attributes. -/
abbrev Pt : Type := ℤ × ℤ

/-- Node identifiers.  `str s` is an ordinary name; `inter n` models the
string `settings.INTERSECTION_PREFIX + str(n)` used for intersection nodes;
`renamed n k` models the renaming applied by the unique-name generator when
`n` is already taken (the constructors are injective, as string prefixing and
suffixing are on the source's side). -/
inductive NodeId : Type where
  | str (s : String)
  | inter (base : NodeId)
  | renamed (base : NodeId) (k : ℕ)
deriving DecidableEq, Repr

instance : Inhabited NodeId := ⟨.str ""⟩

/-- Attribute values stored in node attribute maps: numbers (coordinates),
strings (generic payload attributes), or a point (the dataframe's geometry
column). -/
inductive AttrVal : Type where
  | num (z : ℤ)
  | str (s : String)
  | pt (p : Pt)
deriving DecidableEq, Repr

/-- A Python attribute dict, in insertion order. -/
abbrev AttrMap : Type := List (String × AttrVal)

/-- `m[k] = v` on a Python dict: overwrite in place if the key exists,
append otherwise. -/
def setAttr (m : AttrMap) (k : String) (v : AttrVal) : AttrMap :=
  if m.any (fun kv => kv.1 = k) then
    m.map (fun kv => if kv.1 = k then (k, v) else kv)
  else
    m ++ [(k, v)]

/-- Dict lookup `m.get(k)`. -/
def getAttr (m : AttrMap) (k : String) : Option AttrVal :=
  (m.find? (fun kv => kv.1 = k)).map (fun kv => kv.2)

/-- Python's `dict.update`: fold the right dict's entries into the left one,
the right one winning on key conflicts. -/
def dictUpdate (m1 m2 : AttrMap) : AttrMap :=
  m2.foldl (fun acc kv => setAttr acc kv.1 kv.2) m1

/-- Node abscissa attribute key (`GeoGraph.x_key`, default from settings). -/
def x_key : String := "x"

/-- Node ordinate attribute key (`GeoGraph.y_key`, default from settings). -/
def y_key : String := "y"

/-- The external geometry collaborators of `tools.py`, over an abstract line
type: shapely's `length`, `project`, `interpolate`, `LineString` construction
of a two-point segment, `geometry_operations.split_line`,
`utils.euclidian_distance` and the nearest-line search
`geometry_operations.get_closest_line_from_points` (taken per point: the
source computes the whole index array up front against a fixed snapshot of
the edge geometries, which is pointwise for a pure oracle). -/
structure GeoOps (Line : Type) : Type where
  length : Line → ℤ
  project : Line → Pt → ℤ
  interpolate : Line → ℤ → Pt
  split_line : Line → ℤ → Line × Line
  euclidian_distance : Pt → Pt → ℤ
  get_closest_line_from_points : Pt → List Line → ℕ
  lineString : Pt → Pt → Line

/-- A networkx spatial graph: directedness and multigraph-ness flags, nodes
with their attribute dicts, and edges each carrying its line geometry (the
merge only ever reads and writes the geometry attribute of an edge, and every
edge of the graphs under consideration carries one, so the edge attribute
dict is represented by the geometry alone). -/
structure GeoGraph (Line : Type) : Type where
  directed : Bool
  multigraph : Bool
  nodes : List (NodeId × AttrMap)
  edges : List ((NodeId × NodeId) × Line)
deriving DecidableEq

/-- The list of node identifiers of a graph. -/
def nodeIds {Line : Type} (g : GeoGraph Line) : List NodeId :=
  g.nodes.map (fun p => p.1)

/-- `n in graph.nodes`. -/
def has_node {Line : Type} (g : GeoGraph Line) (n : NodeId) : Bool :=
  g.nodes.any (fun p => p.1 = n)

/-- `graph.add_node(n, **attrs)`: networkx updates the attribute dict of an
existing node and appends a new node otherwise. -/
def add_node {Line : Type} (g : GeoGraph Line) (n : NodeId) (a : AttrMap) :
    GeoGraph Line :=
  if has_node g n then
    { g with nodes := g.nodes.map (fun p => if p.1 = n then (n, dictUpdate p.2 a) else p) }
  else
    { g with nodes := g.nodes ++ [(n, a)] }

/-- `graph.nodes[n]`, defaulting to the empty dict for an absent node. -/
def node_attrs {Line : Type} (g : GeoGraph Line) (n : NodeId) : AttrMap :=
  ((g.nodes.find? (fun p => p.1 = n)).map (fun p => p.2)).getD []

/-- `graph.get_node_coordinates(n)`: read the `x_key`/`y_key` attributes of
the node (the graph container guarantees they are set on every node; absent
or ill-typed coordinates default to the origin). -/
def get_node_coordinates {Line : Type} (g : GeoGraph Line) (n : NodeId) : Pt :=
  match getAttr (node_attrs g n) x_key, getAttr (node_attrs g n) y_key with
  | some (.num x), some (.num y) => (x, y)
  | _, _ => (0, 0)

/-- Whether a stored edge key answers for a queried key: equal keys always
do, and an undirected graph also matches the reversed key. -/
def keyMatches (directed : Bool) (stored target : NodeId × NodeId) : Bool :=
  stored = target || (!directed && stored = (target.2, target.1))

/-- `graph.has_edge(u, v)`. -/
def has_edge {Line : Type} (g : GeoGraph Line) (e : NodeId × NodeId) : Bool :=
  g.edges.any (fun p => keyMatches g.directed p.1 e)

/-- `graph.add_edge(u, v, **{geometry_key: line})`: overwrite the geometry of
an existing edge (keeping its stored orientation), append a new edge
otherwise.  Both endpoints already exist as nodes at every call site of the
merge, so the node-inserting side effect of networkx's `add_edge` is not
modelled. -/
def add_edge {Line : Type} (g : GeoGraph Line) (u v : NodeId) (line : Line) :
    GeoGraph Line :=
  if has_edge g (u, v) then
    { g with edges := g.edges.map (fun p => if keyMatches g.directed p.1 (u, v) then (p.1, line) else p) }
  else
    { g with edges := g.edges ++ [((u, v), line)] }

/-- `graph.remove_edge(u, v)`: drop the stored edge matching the key (the
graph invariant keeps at most one matching entry, so the filter removes at
most that one edge). -/
def remove_edge {Line : Type} (g : GeoGraph Line) (e : NodeId × NodeId) :
    GeoGraph Line :=
  { g with edges := g.edges.filter (fun p => !(keyMatches g.directed p.1 e)) }

/-- The geometry stored on edge `e`, if present. -/
def edge_line {Line : Type} (g : GeoGraph Line) (e : NodeId × NodeId) :
    Option Line :=
  (g.edges.find? (fun p => keyMatches g.directed p.1 e)).map (fun p => p.2)

/-- The rename tags already used on renamings of `n` among `ids`. -/
def usedTags (ids : List NodeId) (n : NodeId) : List ℕ :=
  ids.filterMap (fun i =>
    match i with
    | .renamed m k => if m = n then some k else none
    | _ => none)

/-- Modelled from the spec: `utils.get_new_node_unique_name` (the
name-uniqueness generator, an external collaborator not under `src/`) returns
the requested name when it is free and otherwise applies a uniqueness
preserving rename; here the rename picks a tag strictly above every tag
already used on renamings of the same base name. -/
def get_new_node_unique_name {Line : Type} (g : GeoGraph Line) (n : NodeId) :
    NodeId :=
  if has_node g n then
    .renamed n ((usedTags (nodeIds g) n).foldr max 0 + 1)
  else
    n

theorem le_foldr_max (l : List ℕ) (a : ℕ) : a ∈ l → a ≤ l.foldr max 0 := by
  induction l with
  | nil => intro h; cases h
  | cons b t ih =>
    intro h
    rcases List.mem_cons.mp h with h | h
    · subst h; exact le_max_left _ _
    · exact le_trans (ih h) (le_max_right _ _)

/-- The generated node name is never already present in the graph. -/
theorem get_new_node_unique_name_fresh {Line : Type} (g : GeoGraph Line)
    (n : NodeId) : has_node g (get_new_node_unique_name g n) = false := by
  unfold get_new_node_unique_name
  by_cases h : has_node g n
  · simp only [h, if_true]
    set K : ℕ := (usedTags (nodeIds g) n).foldr max 0 + 1 with hK
    by_contra hmem
    rw [Bool.not_eq_false] at hmem
    unfold has_node at hmem
    rw [List.any_eq_true] at hmem
    obtain ⟨p, hp, hpe⟩ := hmem
    rw [decide_eq_true_eq] at hpe
    have htag : K ∈ usedTags (nodeIds g) n := by
      unfold usedTags
      rw [List.mem_filterMap]
      refine ⟨p.1, ?_, ?_⟩
      · exact List.mem_map.mpr ⟨p, hp, rfl⟩
      · rw [hpe]; simp
    have := le_foldr_max _ _ htag
    omega
  · simp only [h, if_false]
    exact Bool.not_eq_true _ |>.mp h

/-- One row of the `points_gdf` GeoDataFrame: its index label, its geometry
(a point) and the row's column values (the dataframe staging is an external
collaborator; a row is its index, its point and its attribute dict). -/
structure PointRec : Type where
  index : NodeId
  point : Pt
  attrs : AttrMap
deriving DecidableEq

/-- The `edges_to_split` table: `defaultdict(dict)` mapping an edge key to a
dict from intersection node name to distance-on-line, both in insertion
order. -/
abbrev SplitTable : Type := List ((NodeId × NodeId) × List (NodeId × ℤ))

/-- `dict[n] = d` on an inner split dict. -/
def setSplit (l : List (NodeId × ℤ)) (n : NodeId) (d : ℤ) : List (NodeId × ℤ) :=
  if l.any (fun q => q.1 = n) then
    l.map (fun q => if q.1 = n then (n, d) else q)
  else
    l ++ [(n, d)]

/-- `edges_to_split[e][n] = d` (a `defaultdict(dict)` creates the inner dict
on first use). -/
def recordSplit (t : SplitTable) (e : NodeId × NodeId) (n : NodeId) (d : ℤ) :
    SplitTable :=
  if t.any (fun p => p.1 = e) then
    t.map (fun p => if p.1 = e then (p.1, setSplit p.2 n d) else p)
  else
    t ++ [(e, [(n, d)])]

/-- Lines 49-50: `closest_edge_name = list(edges_as_lines.keys())[idx]` and
`closest_line = edges_as_lines[closest_edge_name]`, with `idx` the oracle's
index for this point.  An out-of-range index (excluded by the oracle's
contract, 4.1) yields the junk default. -/
def closest_edge {Line : Type} [Inhabited Line] (ops : GeoOps Line)
    (edges_as_lines : List ((NodeId × NodeId) × Line)) (p : Pt) :
    (NodeId × NodeId) × Line :=
  edges_as_lines.getD
    (ops.get_closest_line_from_points p (edges_as_lines.map (fun q => q.2)))
    default

/-- Lines 66-71: the endpoint-snap choice between the two extremities of the
closest edge, by euclidean distance from the merged point to each endpoint's
node coordinates. -/
def snap_choice {Line : Type} (ops : GeoOps Line) (g : GeoGraph Line) (p : Pt)
    (e : NodeId × NodeId) : NodeId :=
  if ops.euclidian_distance p (get_node_coordinates g e.1) <
      ops.euclidian_distance p (get_node_coordinates g e.2) then
    e.1
  else
    e.2

/-- Lines 72-86: connect the new point node to its intersection node, with a
fresh straight segment as each added edge's geometry; directed graphs follow
`merge_direction` (`"both"`, `"in"`, anything else behaving as `"out"`),
undirected graphs add the single edge. -/
def add_point_edges {Line : Type} (ops : GeoOps Line) (g : GeoGraph Line)
    (merge_direction : String) (node_name intersection_node_name : NodeId) :
    GeoGraph Line :=
  let in_edge := ops.lineString (get_node_coordinates g node_name)
    (get_node_coordinates g intersection_node_name)
  if g.directed then
    let out_edge := ops.lineString (get_node_coordinates g intersection_node_name)
      (get_node_coordinates g node_name)
    if merge_direction = "both" then
      add_edge (add_edge g node_name intersection_node_name in_edge)
        intersection_node_name node_name out_edge
    else if merge_direction = "in" then
      add_edge g node_name intersection_node_name in_edge
    else
      add_edge g intersection_node_name node_name out_edge
  else
    add_edge g node_name intersection_node_name in_edge

/-- Lines 41-86, the body of the phase-1 loop for one point: add the point
node, find the closest edge on the fixed snapshot, then either create an
interior intersection node and record a split request, or snap to the
euclidean-closer extremity; finally connect point and intersection node. -/
def merge_one_point {Line : Type} [Inhabited Line] (ops : GeoOps Line)
    (edges_as_lines : List ((NodeId × NodeId) × Line)) (merge_direction : String)
    (st : GeoGraph Line × SplitTable) (pr : PointRec) :
    GeoGraph Line × SplitTable :=
  let node_name := get_new_node_unique_name st.1 pr.index
  let node_info := setAttr (setAttr pr.attrs x_key (.num pr.point.1)) y_key (.num pr.point.2)
  let graph := add_node st.1 node_name node_info
  let closest := closest_edge ops edges_as_lines pr.point
  let closest_edge_name := closest.1
  let closest_line := closest.2
  let closest_line_length := ops.length closest_line
  let intersection_distance_on_line := ops.project closest_line pr.point
  if 0 < intersection_distance_on_line ∧ intersection_distance_on_line < closest_line_length then
    let projected_point := ops.interpolate closest_line intersection_distance_on_line
    let intersection_node_name := get_new_node_unique_name graph (.inter pr.index)
    let graph := add_node graph intersection_node_name
      [(x_key, .num projected_point.1), (y_key, .num projected_point.2)]
    let edges_to_split := recordSplit st.2 closest_edge_name intersection_node_name
      intersection_distance_on_line
    (add_point_edges ops graph merge_direction node_name intersection_node_name, edges_to_split)
  else
    let intersection_node_name := snap_choice ops graph pr.point closest_edge_name
    (add_point_edges ops graph merge_direction node_name intersection_node_name, st.2)

/-- Lines 98-104: iterate `split_line` along the shrinking remainder, cutting
at each sorted distance relative to the previous cut (`prev`), and collect
the sub-segments; the final remainder is the last sub-segment. -/
def split_line_chain {Line : Type} (ops : GeoOps Line) (rem : Line) (prev : ℤ) :
    List ℤ → List Line
  | [] => [rem]
  | d :: ds =>
    let cut := ops.split_line rem (d - prev)
    cut.1 :: split_line_chain ops cut.2 d ds

/-- Lines 88-112, the body of the phase-2 loop for one split-table entry:
remove the original edge if still present, sort the intersection nodes by
ascending distance-on-line (Python's stable `sorted`, modelled by the stable
`insertionSort`), cut the snapshot line and add the `k+1` chain edges in the
source's order (first edge, last edge, then the middles). -/
def splice_edge {Line : Type} [Inhabited Line] (ops : GeoOps Line)
    (edges_as_lines : List ((NodeId × NodeId) × Line)) (g : GeoGraph Line)
    (entry : (NodeId × NodeId) × List (NodeId × ℤ)) : GeoGraph Line :=
  let e := entry.1
  let intersection_nodes := entry.2
  if 0 < intersection_nodes.length then
    let initial_line := (((edges_as_lines.find? (fun p => p.1 = e)).map (fun p => p.2)).getD default)
    let g1 := if has_edge g e then remove_edge g e else g
    let sorted_intersection_nodes :=
      intersection_nodes.insertionSort (fun a b => a.2 ≤ b.2)
    let distances_on_initial_line := sorted_intersection_nodes.map (fun q => q.2)
    let split_lines := split_line_chain ops initial_line 0 distances_on_initial_line
    let k := sorted_intersection_nodes.length
    let additions : List ((NodeId × NodeId) × Line) :=
      [((e.1, (sorted_intersection_nodes.getD 0 default).1), split_lines.getD 0 default),
       (((sorted_intersection_nodes.getD (k - 1) default).1, e.2), split_lines.getD k default)]
      ++ (List.range (k - 1)).map (fun i =>
          (((sorted_intersection_nodes.getD i default).1,
            (sorted_intersection_nodes.getD (i + 1) default).1),
           split_lines.getD (i + 1) default))
    additions.foldl (fun h t => add_edge h t.1.1 t.1.2 t.2) g1
  else g

/-- Lines 34-112: the merge proper on a given graph value — snapshot the
edge geometries, run the phase-1 loop over the batch accumulating the split
table, then replay the split table in phase 2. -/
def spatial_points_merge_core {Line : Type} [Inhabited Line] (ops : GeoOps Line)
    (graph : GeoGraph Line) (points_gdf : List PointRec) (merge_direction : String) :
    GeoGraph Line :=
  let edges_as_lines := graph.edges
  let st := points_gdf.foldl (merge_one_point ops edges_as_lines merge_direction)
    (graph, ([] : SplitTable))
  st.2.foldl (splice_edge ops edges_as_lines) st.1

/-- `graph.copy()`: a deep copy; on graph values, the same value. -/
def graph_copy {Line : Type} (g : GeoGraph Line) : GeoGraph Line := g

/-- `spatial_points_merge` (lines 19-115) with its in-place contract made
explicit by state passing: the result is the pair (caller's graph after the
call, returned value).  In-place mode mutates the caller's graph and returns
`None`; copy mode works on a copy and returns it, leaving the caller's graph
as it was. -/
def spatial_points_merge {Line : Type} [Inhabited Line] (ops : GeoOps Line)
    (graph : GeoGraph Line) (points_gdf : List PointRec) (inplace : Bool)
    (merge_direction : String) : GeoGraph Line × Option (GeoGraph Line) :=
  if inplace then
    (spatial_points_merge_core ops graph points_gdf merge_direction, none)
  else
    (graph, some (spatial_points_merge_core ops (graph_copy graph) points_gdf merge_direction))

/-- `networkx.compose(G, H)` (third-party collaborator, modelled after its
documented semantics): a new graph with the nodes and edges of both inputs;
a node or edge present in both keeps `G`'s entry dict-updated by `H`'s data,
so `H`'s attribute values take precedence on conflicting keys.  The result
is a fresh graph: neither input is mutated. -/
def compose {Line : Type} (G H : GeoGraph Line) : GeoGraph Line :=
  let nodes := H.nodes.foldl
    (fun ns p =>
      if ns.any (fun q => q.1 = p.1) then
        ns.map (fun q => if q.1 = p.1 then (q.1, dictUpdate q.2 p.2) else q)
      else ns ++ [p])
    G.nodes
  let edges := H.edges.foldl
    (fun es p =>
      if es.any (fun q => keyMatches G.directed q.1 p.1) then
        es.map (fun q => if keyMatches G.directed q.1 p.1 then (q.1, p.2) else q)
      else es ++ [p])
    G.edges
  { directed := G.directed, multigraph := G.multigraph, nodes := nodes, edges := edges }

/-- `networkx.subgraph(G, nodes)` (third-party collaborator): the induced
subgraph on the given node set. -/
def subgraph {Line : Type} (g : GeoGraph Line) (ns : List NodeId) : GeoGraph Line :=
  { g with
    nodes := g.nodes.filter (fun p => ns.any (fun m => m = p.1)),
    edges := g.edges.filter (fun p =>
      (g.nodes.any (fun q => q.1 = p.1.1) && ns.any (fun m => m = p.1.1)) &&
      (g.nodes.any (fun q => q.1 = p.1.2) && ns.any (fun m => m = p.1.2))) }

/-- Read a coordinate pair out of a node attribute dict. -/
def attr_coordinates (m : AttrMap) : Pt :=
  match getAttr m x_key, getAttr m y_key with
  | some (.num x), some (.num y) => (x, y)
  | _, _ => (0, 0)

/-- Modelled from the spec: `readwrite.graph_nodes_to_gdf` (dataframe
staging, an external collaborator not under `src/`) turns the nodes of a
graph into a point batch: one row per node, indexed by the node identifier,
with the node's coordinates as the row geometry and the node's attributes as
the row columns (the geometry column carrying the point). -/
def graph_nodes_to_gdf {Line : Type} (g : GeoGraph Line) : List PointRec :=
  g.nodes.map (fun p =>
    { index := p.1, point := attr_coordinates p.2,
      attrs := setAttr p.2 "geometry" (.pt (attr_coordinates p.2)) })

/-- Lines 137-142: the point batch of a graph merge — the induced subgraph
on `merging_nodes` when that list is non-empty, otherwise the secondary
graph's full node set with the `unmerged_nodes` rows dropped. -/
def derive_batch {Line : Type} (other_graph : GeoGraph Line)
    (unmerged_nodes merging_nodes : List NodeId) : List PointRec :=
  if 0 < merging_nodes.length then
    graph_nodes_to_gdf (subgraph other_graph merging_nodes)
  else
    (graph_nodes_to_gdf other_graph).filter
      (fun pr => !(unmerged_nodes.any (fun m => m = pr.index)))

/-- `spatial_graph_merge` (lines 118-151), with state passing: an `.ok`
result is the pair (caller's `base_graph` after the call, returned value);
an `.error` result models the `ValueError` raised by the validation, before
anything is built or mutated.  The in-place branch reproduces the source
faithfully: the points merge mutates `base_graph`, but `nx.compose` returns
a fresh graph that is bound to the local `merged_graph` and, with no return
in the in-place case, discarded. -/
def spatial_graph_merge {Line : Type} [Inhabited Line] (ops : GeoOps Line)
    (base_graph other_graph : GeoGraph Line) (inplace : Bool)
    (merge_direction : String) (unmerged_nodes merging_nodes : List NodeId) :
    Except String (GeoGraph Line × Option (GeoGraph Line)) :=
  if base_graph.directed ≠ other_graph.directed then
    .error "Merging a directed graph and an undirected graph is ambiguous"
  else if base_graph.multigraph ≠ other_graph.multigraph then
    .error "Merging a multigraph and a graph is ambiguous"
  else if 0 < unmerged_nodes.length ∧ 0 < merging_nodes.length then
    .error "Cannot provide unmerged_nodes and merging_nodes"
  else
    let nodes_gdf := derive_batch other_graph unmerged_nodes merging_nodes
    if inplace then
      let pres := spatial_points_merge ops base_graph nodes_gdf true merge_direction
      let merged_graph := pres.1
      let merged_graph := compose merged_graph other_graph
      .ok (pres.1, none)
    else
      let pres := spatial_points_merge ops base_graph nodes_gdf false merge_direction
      let merged_graph := (pres.2).getD base_graph
      let merged_graph := compose merged_graph other_graph
      .ok (pres.1, some merged_graph)

/-! ## A concrete geometry instance

A concrete instantiation of the external geometry collaborators, used to
evaluate the embedded code on explicit inputs (counterexamples and
witnesses).  Lines are polylines; the instance computes exact results for
the axis-aligned segments used by the concrete inputs (on which taxicab and
euclidean metrics agree) and arbitrary total junk elsewhere. -/

/-- A concrete line: a polyline given by its vertices. -/
abbrev TestLine : Type := List Pt

/-- Taxicab distance, agreeing with the euclidean metric on axis-aligned
displacements. -/
def taxicab (p q : Pt) : ℤ := |q.1 - p.1| + |q.2 - p.2|

/-- Polyline length under `taxicab`. -/
def polyLen : TestLine → ℤ
  | a :: b :: rest => taxicab a b + polyLen (b :: rest)
  | _ => 0

/-- Distance along an axis-aligned two-point segment of the point of the
segment closest to `p` (clamped to the segment). -/
def testProject : TestLine → Pt → ℤ
  | [a, b], p =>
    if a.2 = b.2 ∧ a.1 ≤ b.1 then min (max (p.1 - a.1) 0) (b.1 - a.1)
    else if a.1 = b.1 ∧ a.2 ≤ b.2 then min (max (p.2 - a.2) 0) (b.2 - a.2)
    else 0
  | _, _ => 0

/-- The point at distance `d` along an axis-aligned two-point segment. -/
def testInterpolate : TestLine → ℤ → Pt
  | [a, b], d =>
    if a.2 = b.2 ∧ a.1 ≤ b.1 then (a.1 + d, a.2)
    else if a.1 = b.1 ∧ a.2 ≤ b.2 then (a.1, a.2 + d)
    else a
  | l, _ => l.getD 0 (0, 0)

/-- Cut a two-point segment at distance `d` into the two sub-segments. -/
def testSplit (l : TestLine) (d : ℤ) : TestLine × TestLine :=
  match l with
  | [a, b] =>
    let m := testInterpolate [a, b] d
    ([a, m], [m, b])
  | _ => (l, l)

/-- Distance from `p` to the closest point of a line. -/
def testDistToLine (l : TestLine) (p : Pt) : ℤ :=
  taxicab p (testInterpolate l (testProject l p))

/-- Index of the first line minimizing `f` (first-wins tie-break). -/
def argmin (f : TestLine → ℤ) : List TestLine → ℕ
  | [] => 0
  | l :: rest =>
    ((rest.foldl
        (fun (best : ℕ × ℤ × ℕ) l' =>
          let cur := best.2.2 + 1
          if f l' < best.2.1 then (cur, f l', cur) else (best.1, best.2.1, cur))
        (0, f l, 0))).1

/-- The concrete collaborator instance over `TestLine`. -/
def testOps : GeoOps TestLine :=
  { length := polyLen
    project := testProject
    interpolate := testInterpolate
    split_line := testSplit
    euclidian_distance := taxicab
    get_closest_line_from_points := fun p ls => argmin (fun l => testDistToLine l p) ls
    lineString := fun a b => [a, b] }

/-! ## Basic lemmas about the graph operations -/

theorem add_node_directed {Line : Type} (g : GeoGraph Line) (n : NodeId)
    (a : AttrMap) : (add_node g n a).directed = g.directed := by
  unfold add_node; split <;> rfl

theorem add_node_edges {Line : Type} (g : GeoGraph Line) (n : NodeId)
    (a : AttrMap) : (add_node g n a).edges = g.edges := by
  unfold add_node; split <;> rfl

theorem add_node_of_fresh {Line : Type} {g : GeoGraph Line} {n : NodeId}
    (a : AttrMap) (h : has_node g n = false) :
    (add_node g n a).nodes = g.nodes ++ [(n, a)] := by
  unfold add_node
  rw [h]
  rfl

theorem add_node_nodes_length {Line : Type} (g : GeoGraph Line) (n : NodeId)
    (a : AttrMap) : (add_node g n a).nodes.length = g.nodes.length +
      (if has_node g n then 0 else 1) := by
  unfold add_node
  split
  · simp_all
  · simp_all

theorem add_edge_nodes {Line : Type} (g : GeoGraph Line) (u v : NodeId)
    (l : Line) : (add_edge g u v l).nodes = g.nodes := by
  unfold add_edge; split <;> rfl

theorem add_edge_directed {Line : Type} (g : GeoGraph Line) (u v : NodeId)
    (l : Line) : (add_edge g u v l).directed = g.directed := by
  unfold add_edge; split <;> rfl

theorem add_edge_of_absent {Line : Type} {g : GeoGraph Line} {u v : NodeId}
    (l : Line) (h : has_edge g (u, v) = false) :
    (add_edge g u v l).edges = g.edges ++ [((u, v), l)] := by
  unfold add_edge
  rw [h]
  rfl

theorem remove_edge_nodes {Line : Type} (g : GeoGraph Line) (e : NodeId × NodeId) :
    (remove_edge g e).nodes = g.nodes := rfl

theorem remove_edge_directed {Line : Type} (g : GeoGraph Line) (e : NodeId × NodeId) :
    (remove_edge g e).directed = g.directed := rfl

theorem add_point_edges_nodes {Line : Type} (ops : GeoOps Line) (g : GeoGraph Line)
    (dir : String) (n i : NodeId) : (add_point_edges ops g dir n i).nodes = g.nodes := by
  unfold add_point_edges
  split
  · split
    · rw [add_edge_nodes, add_edge_nodes]
    · split <;> rw [add_edge_nodes]
  · rw [add_edge_nodes]

theorem add_point_edges_directed {Line : Type} (ops : GeoOps Line) (g : GeoGraph Line)
    (dir : String) (n i : NodeId) : (add_point_edges ops g dir n i).directed = g.directed := by
  unfold add_point_edges
  split
  · split
    · rw [add_edge_directed, add_edge_directed]
    · split <;> rw [add_edge_directed]
  · rw [add_edge_directed]

/-! ## Claim theorems: in-place contracts and validation -/

/-- C7: in copy mode (`inplace = False`) the caller's graph is left
unchanged and the returned value is a clone carrying the full merged result
(the very graph that in-place mode would leave in the caller's variable);
in-place mode mutates the caller's graph and returns `None`.  In the
state-passing embedding the first component is the caller's graph after the
call and the second the returned value. -/
theorem spatial_points_merge_inplace_contract {Line : Type} [Inhabited Line]
    (ops : GeoOps Line) (g : GeoGraph Line) (batch : List PointRec) (dir : String) :
    (spatial_points_merge ops g batch false dir).1 = g ∧
    (spatial_points_merge ops g batch false dir).2 =
      some ((spatial_points_merge ops g batch true dir).1) ∧
    (spatial_points_merge ops g batch true dir).1 =
      spatial_points_merge_core ops g batch dir ∧
    (spatial_points_merge ops g batch true dir).2 = none :=
  ⟨rfl, rfl, rfl, rfl⟩

/-- C3: the graph merge signals a configuration error exactly when the two
graphs disagree on directedness, or disagree on multigraph-ness, or both a
non-empty merging-node list and a non-empty unmerged-node list are supplied;
the checks run before anything is built, and an error result carries no
graph state, so both inputs are untouched. -/
theorem spatial_graph_merge_error_iff {Line : Type} [Inhabited Line]
    (ops : GeoOps Line) (base other : GeoGraph Line) (inplace : Bool)
    (dir : String) (unm mrg : List NodeId) :
    (∃ msg, spatial_graph_merge ops base other inplace dir unm mrg = .error msg) ↔
    (base.directed ≠ other.directed ∨ base.multigraph ≠ other.multigraph ∨
      (unm ≠ [] ∧ mrg ≠ [])) := by
  unfold spatial_graph_merge
  by_cases h1 : base.directed ≠ other.directed
  · simp [h1]
  · by_cases h2 : base.multigraph ≠ other.multigraph
    · simp [h1, h2]
    · by_cases h3 : 0 < unm.length ∧ 0 < mrg.length
      · simp only [h1, h2, h3, if_true, if_false, ite_true, ite_false]
        constructor
        · intro _
          exact Or.inr (Or.inr ⟨List.length_pos.mp h3.1, List.length_pos.mp h3.2⟩)
        · intro _
          exact ⟨_, rfl⟩
      · have h3' : ¬ (unm ≠ [] ∧ mrg ≠ []) := by
          intro hc
          exact h3 ⟨List.length_pos.mpr hc.1, List.length_pos.mpr hc.2⟩
        simp only [h1, h2, h3, if_false, ite_false]
        cases inplace <;> simp [h1, h2, h3']

/-! ## Concrete inputs for the graph-merge claims -/

/-- Shared node identifier for the overlap scenario. -/
def nS : NodeId := .str "S"

/-- Primary graph: one horizontal edge from (0,0) to (10,0) and a shared
node `S` at (2,2) whose `color` is `red`. -/
def baseWithShared : GeoGraph TestLine :=
  { directed := false, multigraph := false,
    nodes := [(.str "A", [("x", .num 0), ("y", .num 0)]),
              (.str "B", [("x", .num 10), ("y", .num 0)]),
              (nS, [("x", .num 2), ("y", .num 2), ("color", .str "red")])],
    edges := [((.str "A", .str "B"), [(0, 0), (10, 0)])] }

/-- Secondary graph: the shared node `S`, at (5,1), with `color` `blue`. -/
def otherWithShared : GeoGraph TestLine :=
  { directed := false, multigraph := false,
    nodes := [(nS, [("x", .num 5), ("y", .num 1), ("color", .str "blue")])],
    edges := [] }

/-- C1, counterexample: node `S` is present in both graphs (and its primary
attribute map, `color = red`, survives the points merge untouched), yet in
the output of the final union step its `color` attribute is the secondary
graph's `blue` — `nx.compose(merged_graph, other_graph)` gives the second
argument's attributes precedence, so the secondary overwrites the primary on
overlapping node identifiers, contrary to the claim. -/
theorem spatial_graph_merge_secondary_attrs_win :
    has_node baseWithShared nS = true ∧
    has_node otherWithShared nS = true ∧
    getAttr (node_attrs baseWithShared nS) "color" = some (.str "red") ∧
    getAttr (node_attrs
      (spatial_points_merge_core testOps baseWithShared
        (derive_batch otherWithShared [] []) "both") nS) "color" = some (.str "red") ∧
    ((spatial_graph_merge testOps baseWithShared otherWithShared false "both" [] []).toOption.map
      (fun r => r.2.map (fun g => getAttr (node_attrs g nS) "color"))) =
      some (some (some (.str "blue"))) := by
  decide

/-- Primary graph for the in-place scenario: a single horizontal edge. -/
def baseAB : GeoGraph TestLine :=
  { directed := false, multigraph := false,
    nodes := [(.str "A", [("x", .num 0), ("y", .num 0)]),
              (.str "B", [("x", .num 10), ("y", .num 0)])],
    edges := [((.str "A", .str "B"), [(0, 0), (10, 0)])] }

/-- Secondary graph for the in-place scenario: an edge (C,D) of its own. -/
def otherCD : GeoGraph TestLine :=
  { directed := false, multigraph := false,
    nodes := [(.str "C", [("x", .num 5), ("y", .num 1)]),
              (.str "D", [("x", .num 7), ("y", .num 1)])],
    edges := [((.str "C", .str "D"), [(5, 1), (7, 1)])] }

/-- C2, failing input: merging `otherCD` into `baseAB` in in-place mode.
The call returns nothing, as claimed, but the caller's primary graph does
not contain the secondary's own edge (C,D) — the union step's result
(`nx.compose` returns a fresh graph) is bound to a local variable and
discarded, so the absorbed nodes/edges of the secondary never reach the
caller's graph; the copy-mode result of the very same merge does contain
that edge. -/
theorem spatial_graph_merge_inplace_drops_union :
    ((spatial_graph_merge testOps baseAB otherCD true "both" [] []).toOption.map
      (fun r => (has_node r.1 (.str "C"), has_node r.1 (.str "D"),
                 has_edge r.1 (.str "C", .str "D"), r.2.isNone))) =
      some (true, true, false, true) ∧
    ((spatial_graph_merge testOps baseAB otherCD false "both" [] []).toOption.map
      (fun r => r.2.map (fun g => has_edge g (.str "C", .str "D")))) =
      some (some true) := by
  decide

/-! ## The union step's attribute semantics (amended C1) -/

/-- Attribute dict of the entry for `n` in a node list (empty if absent). -/
def lookupAttrs (l : List (NodeId × AttrMap)) (n : NodeId) : AttrMap :=
  ((l.find? (fun p => p.1 = n)).map (fun p => p.2)).getD []

/-- One step of the node fold inside `compose`. -/
def composeNodeStep (ns : List (NodeId × AttrMap)) (p : NodeId × AttrMap) :
    List (NodeId × AttrMap) :=
  if ns.any (fun q => q.1 = p.1) then
    ns.map (fun q => if q.1 = p.1 then (q.1, dictUpdate q.2 p.2) else q)
  else ns ++ [p]

theorem compose_nodes_eq_fold {Line : Type} (G H : GeoGraph Line) :
    (compose G H).nodes = H.nodes.foldl composeNodeStep G.nodes := rfl

theorem lookupAttrs_map_update (ns : List (NodeId × AttrMap)) (n : NodeId)
    (b : AttrMap) (hn : ns.any (fun p => p.1 = n) = true) :
    lookupAttrs (ns.map (fun q => if q.1 = n then (q.1, dictUpdate q.2 b) else q)) n =
      dictUpdate (lookupAttrs ns n) b := by
  induction ns with
  | nil => simp at hn
  | cons q t ih =>
    by_cases hq : q.1 = n
    · simp only [List.map_cons, hq, if_true, lookupAttrs]
      rw [List.find?_cons_of_pos _ (by simp [hq]), List.find?_cons_of_pos _ (by simp [hq])]
      simp
    · have hn' : t.any (fun p => p.1 = n) = true := by
        simp only [List.any_cons, hq, decide_eq_true_eq] at hn
        simpa using hn
      simp only [List.map_cons, hq, if_false, lookupAttrs]
      rw [List.find?_cons_of_neg _ (by simp [hq]), List.find?_cons_of_neg _ (by simp [hq])]
      exact ih hn'

theorem lookupAttrs_map_other (ns : List (NodeId × AttrMap)) (n m : NodeId)
    (b : AttrMap) (hm : m ≠ n) :
    lookupAttrs (ns.map (fun q => if q.1 = m then (q.1, dictUpdate q.2 b) else q)) n =
      lookupAttrs ns n := by
  induction ns with
  | nil => rfl
  | cons q t ih =>
    by_cases hq : q.1 = n
    · have hqm : ¬ q.1 = m := by rw [hq]; exact fun h => hm h.symm
      simp only [List.map_cons, hqm, if_false, lookupAttrs]
      rw [List.find?_cons_of_pos _ (by simp [hq]), List.find?_cons_of_pos _ (by simp [hq])]
    · by_cases hqm : q.1 = m
      · simp only [List.map_cons, hqm, if_true, lookupAttrs]
        rw [List.find?_cons_of_neg _ (by simpa [hqm] using fun h => hq h),
          List.find?_cons_of_neg _ (by simp [hq])]
        exact ih
      · simp only [List.map_cons, hqm, if_false, lookupAttrs]
        rw [List.find?_cons_of_neg _ (by simp [hq]), List.find?_cons_of_neg _ (by simp [hq])]
        exact ih

theorem lookupAttrs_append_other (ns : List (NodeId × AttrMap))
    (p : NodeId × AttrMap) (n : NodeId) (hp : p.1 ≠ n) :
    lookupAttrs (ns ++ [p]) n = lookupAttrs ns n := by
  induction ns with
  | nil =>
    simp only [List.nil_append, lookupAttrs]
    rw [List.find?_cons_of_neg _ (by simp [hp])]
  | cons q t ih =>
    by_cases hq : q.1 = n
    · simp only [List.cons_append, lookupAttrs]
      rw [List.find?_cons_of_pos _ (by simp [hq]), List.find?_cons_of_pos _ (by simp [hq])]
    · simp only [List.cons_append, lookupAttrs]
      rw [List.find?_cons_of_neg _ (by simp [hq]), List.find?_cons_of_neg _ (by simp [hq])]
      exact ih

theorem any_key_composeNodeStep (ns : List (NodeId × AttrMap))
    (p : NodeId × AttrMap) (n : NodeId) (hn : ns.any (fun q => q.1 = n) = true) :
    (composeNodeStep ns p).any (fun q => q.1 = n) = true := by
  unfold composeNodeStep
  split
  · rw [List.any_map]
    have : ((fun q : NodeId × AttrMap => decide (q.1 = n)) ∘
        (fun q => if q.1 = p.1 then (q.1, dictUpdate q.2 p.2) else q)) =
        (fun q : NodeId × AttrMap => decide (q.1 = n)) := by
      funext q
      by_cases hq : q.1 = p.1 <;> simp [hq]
    rw [this]; exact hn
  · rw [List.any_append, hn]; rfl

theorem lookupAttrs_composeNodeStep_other (ns : List (NodeId × AttrMap))
    (p : NodeId × AttrMap) (n : NodeId) (hp : p.1 ≠ n) :
    lookupAttrs (composeNodeStep ns p) n = lookupAttrs ns n := by
  unfold composeNodeStep
  split
  · exact lookupAttrs_map_other ns n p.1 p.2 hp
  · exact lookupAttrs_append_other ns p n hp

theorem lookupAttrs_fold_no_key (hs ns : List (NodeId × AttrMap)) (n : NodeId)
    (hh : hs.any (fun p => p.1 = n) = false) :
    lookupAttrs (hs.foldl composeNodeStep ns) n = lookupAttrs ns n := by
  induction hs generalizing ns with
  | nil => rfl
  | cons p t ih =>
    simp only [List.any_cons, Bool.or_eq_false_iff] at hh
    rw [List.foldl_cons, ih _ (by simpa using hh.2),
      lookupAttrs_composeNodeStep_other ns p n (by simpa using hh.1)]

theorem lookupAttrs_fold_update (hs ns : List (NodeId × AttrMap)) (n : NodeId)
    (hnodup : (hs.map (fun p => p.1)).Nodup)
    (hn : ns.any (fun p => p.1 = n) = true)
    (hh : hs.any (fun p => p.1 = n) = true) :
    lookupAttrs (hs.foldl composeNodeStep ns) n =
      dictUpdate (lookupAttrs ns n) (lookupAttrs hs n) := by
  induction hs generalizing ns with
  | nil => simp at hh
  | cons p t ih =>
    rw [List.map_cons, List.nodup_cons] at hnodup
    by_cases hp : p.1 = n
    · have ht : t.any (fun q => q.1 = n) = false := by
        by_contra hc
        rw [Bool.not_eq_false, List.any_eq_true] at hc
        obtain ⟨q, hq, hq2⟩ := hc
        rw [decide_eq_true_eq] at hq2
        exact hnodup.1 (by rw [hp, ← hq2]; exact List.mem_map.mpr ⟨q, hq, rfl⟩)
      have hstep : composeNodeStep ns p =
          ns.map (fun q => if q.1 = n then (q.1, dictUpdate q.2 p.2) else q) := by
        unfold composeNodeStep
        rw [hp, hn]
        simp [hp]
      rw [List.foldl_cons, hstep, lookupAttrs_fold_no_key t _ n ht,
        lookupAttrs_map_update ns n p.2 hn]
      have : lookupAttrs (p :: t) n = p.2 := by
        unfold lookupAttrs
        rw [List.find?_cons_of_pos _ (by simp [hp])]
        rfl
      rw [this]
    · have hh' : t.any (fun q => q.1 = n) = true := by
        simp only [List.any_cons, hp, decide_eq_true_eq] at hh
        simpa using hh
      have hn' : (composeNodeStep ns p).any (fun q => q.1 = n) = true :=
        any_key_composeNodeStep ns p n hn
      rw [List.foldl_cons, ih _ hnodup.2 hn' hh',
        lookupAttrs_composeNodeStep_other ns p n hp]
      have : lookupAttrs (p :: t) n = lookupAttrs t n := by
        unfold lookupAttrs
        rw [List.find?_cons_of_neg _ (by simp [hp])]
      rw [this]

/-- C1, amended: in copy mode, under the validation conditions, the graph
merge returns the union (`compose`) of the points-merged primary graph with
the secondary graph, and in that union a node identifier present in both
gets the primary's attribute map dict-updated by the secondary's — i.e. the
secondary graph's attribute values take precedence on overlapping keys
(primary keys absent from the secondary survive), rather than the primary's
map being kept. -/
theorem spatial_graph_merge_union_attr_update {Line : Type} [Inhabited Line]
    (ops : GeoOps Line) (base other : GeoGraph Line) (dir : String)
    (unm mrg : List NodeId) (n : NodeId)
    (hd : base.directed = other.directed)
    (hm : base.multigraph = other.multigraph)
    (hl : ¬ (0 < unm.length ∧ 0 < mrg.length))
    (hnodup : (other.nodes.map (fun p => p.1)).Nodup)
    (hn : has_node (spatial_points_merge_core ops base (derive_batch other unm mrg) dir) n = true)
    (ho : has_node other n = true) :
    spatial_graph_merge ops base other false dir unm mrg =
      .ok (base, some (compose
        (spatial_points_merge_core ops base (derive_batch other unm mrg) dir) other)) ∧
    node_attrs (compose
        (spatial_points_merge_core ops base (derive_batch other unm mrg) dir) other) n =
      dictUpdate
        (node_attrs (spatial_points_merge_core ops base (derive_batch other unm mrg) dir) n)
        (node_attrs other n) := by
  constructor
  · unfold spatial_graph_merge
    simp [hd, hm, hl, spatial_points_merge, graph_copy]
  · exact lookupAttrs_fold_update other.nodes _ n hnodup hn ho

/-- Witness for the amended C1 at the concrete overlap scenario: node `S`
is in both graphs and its attribute map in the union is the primary's map
updated by the secondary's. -/
theorem spatial_graph_merge_union_attr_update_witness :
    spatial_graph_merge testOps baseWithShared otherWithShared false "both" [] [] =
      .ok (baseWithShared, some (compose
        (spatial_points_merge_core testOps baseWithShared
          (derive_batch otherWithShared [] []) "both") otherWithShared)) ∧
    node_attrs (compose
        (spatial_points_merge_core testOps baseWithShared
          (derive_batch otherWithShared [] []) "both") otherWithShared) nS =
      dictUpdate
        (node_attrs (spatial_points_merge_core testOps baseWithShared
          (derive_batch otherWithShared [] []) "both") nS)
        (node_attrs otherWithShared nS) :=
  spatial_graph_merge_union_attr_update testOps baseWithShared otherWithShared
    "both" [] [] nS (by decide) (by decide) (by decide) (by decide) (by decide)
    (by decide)

/-! ## Edge-lookup lemmas for the phase-1 connection step -/

theorem keyMatches_iff {d : Bool} {S T : NodeId × NodeId} :
    keyMatches d S T = true ↔ (S = T ∨ (d = false ∧ S = (T.2, T.1))) := by
  unfold keyMatches
  cases d <;> simp

theorem keyMatches_skew {d : Bool} {u v : NodeId} {e : NodeId × NodeId}
    (h : (u ≠ e.1 ∧ u ≠ e.2) ∨ (v ≠ e.1 ∧ v ≠ e.2)) :
    ∀ S : NodeId × NodeId, keyMatches d S (u, v) = true → keyMatches d S e = false := by
  intro S hS
  by_contra hc
  rw [Bool.not_eq_false] at hc
  rw [keyMatches_iff] at hS hc
  rcases hS with hS | ⟨_, hS⟩ <;> rcases hc with hc | ⟨_, hc⟩ <;>
    (rw [hS, Prod.ext_iff] at hc; rcases h with ⟨h1, h2⟩ | ⟨h1, h2⟩ <;> simp_all)

theorem find_key_map_update {Line : Type} (d : Bool)
    (es : List ((NodeId × NodeId) × Line)) (K e : NodeId × NodeId) (l : Line)
    (h : ∀ S, keyMatches d S K = true → keyMatches d S e = false) :
    (es.map (fun p => if keyMatches d p.1 K then (p.1, l) else p)).find?
        (fun p => keyMatches d p.1 e) =
      es.find? (fun p => keyMatches d p.1 e) := by
  induction es with
  | nil => rfl
  | cons p t ih =>
    by_cases hm : keyMatches d p.1 e = true
    · have hK : keyMatches d p.1 K = false := by
        by_contra hc
        rw [Bool.not_eq_false] at hc
        rw [h p.1 hc] at hm
        cases hm
      simp only [List.map_cons, hK, Bool.false_eq_true, if_false]
      simp only [List.find?_cons, hm]
    · rw [Bool.not_eq_true] at hm
      by_cases hK : keyMatches d p.1 K = true
      · simp only [List.map_cons, hK, if_true]
        rw [List.find?_cons_of_neg _ (by simp [hm]), List.find?_cons_of_neg _ (by simp [hm])]
        exact ih
      · rw [Bool.not_eq_true] at hK
        simp only [List.map_cons, hK, Bool.false_eq_true, if_false]
        rw [List.find?_cons_of_neg _ (by simp [hm]), List.find?_cons_of_neg _ (by simp [hm])]
        exact ih

theorem find?_append_none_right {α : Type} (es : List α) (a : α) (p : α → Bool)
    (h : p a = false) : (es ++ [a]).find? p = es.find? p := by
  induction es with
  | nil =>
    simp only [List.nil_append]
    rw [List.find?_cons_of_neg _ (by simp [h])]
  | cons q t ih =>
    by_cases hq : p q = true
    · simp only [List.cons_append]
      rw [List.find?_cons_of_pos _ hq, List.find?_cons_of_pos _ hq]
    · rw [Bool.not_eq_true] at hq
      simp only [List.cons_append]
      rw [List.find?_cons_of_neg _ (by simp [hq]), List.find?_cons_of_neg _ (by simp [hq])]
      exact ih

theorem edge_line_add_edge_skew {Line : Type} {g : GeoGraph Line} {u v : NodeId}
    {e : NodeId × NodeId} (l : Line)
    (h : (u ≠ e.1 ∧ u ≠ e.2) ∨ (v ≠ e.1 ∧ v ≠ e.2)) :
    edge_line (add_edge g u v l) e = edge_line g e := by
  unfold add_edge
  split
  · unfold edge_line
    simp only
    rw [find_key_map_update g.directed g.edges (u, v) e l (keyMatches_skew h)]
  · unfold edge_line
    simp only
    rw [find?_append_none_right g.edges ((u, v), l) _
      (keyMatches_skew h (u, v) (by rw [keyMatches_iff]; exact Or.inl rfl))]

theorem edge_line_add_point_edges_skew {Line : Type} (ops : GeoOps Line)
    (g : GeoGraph Line) (dir : String) {n i : NodeId} {e : NodeId × NodeId}
    (hn1 : n ≠ e.1) (hn2 : n ≠ e.2) :
    edge_line (add_point_edges ops g dir n i) e = edge_line g e := by
  unfold add_point_edges
  split
  · split
    · rw [edge_line_add_edge_skew _ (Or.inr ⟨hn1, hn2⟩),
        edge_line_add_edge_skew _ (Or.inl ⟨hn1, hn2⟩)]
    · split
      · exact edge_line_add_edge_skew _ (Or.inl ⟨hn1, hn2⟩)
      · exact edge_line_add_edge_skew _ (Or.inr ⟨hn1, hn2⟩)
  · exact edge_line_add_edge_skew _ (Or.inl ⟨hn1, hn2⟩)

theorem edge_line_add_node {Line : Type} (g : GeoGraph Line) (n : NodeId)
    (a : AttrMap) (e : NodeId × NodeId) :
    edge_line (add_node g n a) e = edge_line g e := by
  unfold edge_line
  rw [add_node_edges, add_node_directed]

theorem ne_of_has_node {Line : Type} {g : GeoGraph Line} {m n : NodeId}
    (hm : has_node g m = true) (hn : has_node g n = false) : n ≠ m := by
  intro h
  rw [h, hm] at hn
  cases hn

/-! ## Claim theorems: interior projection vs endpoint snap -/

/-- C4: for a merged point whose closest edge is `e` with geometry `L`, an
intersection node (at the interpolated projection) is created and a split
request recorded exactly when the projection distance is strictly between 0
and the line's length; otherwise the point node is the only node added, no
split request is recorded, the point snaps to an extremity of `e` whose
euclidean distance to the point is minimal among the two, and the stored
edge `e` is left unmodified. -/
theorem merge_one_point_projection_cases {Line : Type} [Inhabited Line]
    (ops : GeoOps Line) (eal : List ((NodeId × NodeId) × Line)) (dir : String)
    (g : GeoGraph Line) (table : SplitTable) (pr : PointRec)
    (e : NodeId × NodeId) (L : Line) (node_name : NodeId) (g1 : GeoGraph Line)
    (he : closest_edge ops eal pr.point = (e, L))
    (hname : node_name = get_new_node_unique_name g pr.index)
    (hg1 : g1 = add_node g node_name
      (setAttr (setAttr pr.attrs x_key (.num pr.point.1)) y_key (.num pr.point.2)))
    (hu : has_node g e.1 = true) (hv : has_node g e.2 = true) :
    ((0 < ops.project L pr.point ∧ ops.project L pr.point < ops.length L) →
      (merge_one_point ops eal dir (g, table) pr).2 =
        recordSplit table e (get_new_node_unique_name g1 (.inter pr.index))
          (ops.project L pr.point) ∧
      (merge_one_point ops eal dir (g, table) pr).1.nodes =
        (g.nodes ++ [(node_name,
            setAttr (setAttr pr.attrs x_key (.num pr.point.1)) y_key (.num pr.point.2))]) ++
          [(get_new_node_unique_name g1 (.inter pr.index),
            [(x_key, .num (ops.interpolate L (ops.project L pr.point)).1),
             (y_key, .num (ops.interpolate L (ops.project L pr.point)).2)])]) ∧
    (¬ (0 < ops.project L pr.point ∧ ops.project L pr.point < ops.length L) →
      (merge_one_point ops eal dir (g, table) pr).2 = table ∧
      (merge_one_point ops eal dir (g, table) pr).1.nodes =
        g.nodes ++ [(node_name,
          setAttr (setAttr pr.attrs x_key (.num pr.point.1)) y_key (.num pr.point.2))] ∧
      (snap_choice ops g1 pr.point e = e.1 ∨ snap_choice ops g1 pr.point e = e.2) ∧
      ops.euclidian_distance pr.point (get_node_coordinates g1 (snap_choice ops g1 pr.point e)) ≤
        ops.euclidian_distance pr.point (get_node_coordinates g1 e.1) ∧
      ops.euclidian_distance pr.point (get_node_coordinates g1 (snap_choice ops g1 pr.point e)) ≤
        ops.euclidian_distance pr.point (get_node_coordinates g1 e.2) ∧
      edge_line (merge_one_point ops eal dir (g, table) pr).1 e = edge_line g e) := by
  subst hname
  subst hg1
  have hfreshp : has_node g (get_new_node_unique_name g pr.index) = false :=
    get_new_node_unique_name_fresh g pr.index
  constructor
  · intro h
    simp only [merge_one_point, he]
    rw [if_pos h]
    refine ⟨rfl, ?_⟩
    rw [add_point_edges_nodes,
      add_node_of_fresh _ (get_new_node_unique_name_fresh _ _),
      add_node_of_fresh _ hfreshp]
  · intro h
    simp only [merge_one_point, he]
    rw [if_neg h]
    refine ⟨rfl, ?_, ?_, ?_, ?_, ?_⟩
    · rw [add_point_edges_nodes, add_node_of_fresh _ hfreshp]
    · unfold snap_choice
      split
      · exact Or.inl rfl
      · exact Or.inr rfl
    · unfold snap_choice
      split
      · exact le_refl _
      · exact le_of_not_lt (by assumption)
    · unfold snap_choice
      split
      · exact le_of_lt (by assumption)
      · exact le_refl _
    · rw [edge_line_add_point_edges_skew ops _ dir
        (ne_of_has_node hu hfreshp) (ne_of_has_node hv hfreshp),
        edge_line_add_node]

/-- Witness for C4 at the spec's Scenario B: merging the point (-1,0) onto
the single edge from (0,0) to (10,0) projects at distance 0, so the point
snaps to the closer extremity `A`, only the point node is added, no split
request is recorded and the edge is unmodified. -/
theorem merge_one_point_projection_cases_witness :
    (merge_one_point testOps baseAB.edges "both"
        (baseAB, ([] : SplitTable)) ⟨.str "P", (-1, 0), []⟩).2 = [] ∧
    (merge_one_point testOps baseAB.edges "both"
        (baseAB, ([] : SplitTable)) ⟨.str "P", (-1, 0), []⟩).1.nodes =
      baseAB.nodes ++ [(.str "P",
        setAttr (setAttr [] x_key (.num (-1))) y_key (.num 0))] ∧
    (snap_choice testOps
        (add_node baseAB (.str "P") (setAttr (setAttr [] x_key (.num (-1))) y_key (.num 0)))
        (-1, 0) (.str "A", .str "B") = .str "A" ∨
     snap_choice testOps
        (add_node baseAB (.str "P") (setAttr (setAttr [] x_key (.num (-1))) y_key (.num 0)))
        (-1, 0) (.str "A", .str "B") = .str "B") ∧
    testOps.euclidian_distance (-1, 0)
        (get_node_coordinates
          (add_node baseAB (.str "P") (setAttr (setAttr [] x_key (.num (-1))) y_key (.num 0)))
          (snap_choice testOps
            (add_node baseAB (.str "P") (setAttr (setAttr [] x_key (.num (-1))) y_key (.num 0)))
            (-1, 0) (.str "A", .str "B"))) ≤
      testOps.euclidian_distance (-1, 0)
        (get_node_coordinates
          (add_node baseAB (.str "P") (setAttr (setAttr [] x_key (.num (-1))) y_key (.num 0)))
          (.str "A")) ∧
    testOps.euclidian_distance (-1, 0)
        (get_node_coordinates
          (add_node baseAB (.str "P") (setAttr (setAttr [] x_key (.num (-1))) y_key (.num 0)))
          (snap_choice testOps
            (add_node baseAB (.str "P") (setAttr (setAttr [] x_key (.num (-1))) y_key (.num 0)))
            (-1, 0) (.str "A", .str "B"))) ≤
      testOps.euclidian_distance (-1, 0)
        (get_node_coordinates
          (add_node baseAB (.str "P") (setAttr (setAttr [] x_key (.num (-1))) y_key (.num 0)))
          (.str "B")) ∧
    edge_line (merge_one_point testOps baseAB.edges "both"
        (baseAB, ([] : SplitTable)) ⟨.str "P", (-1, 0), []⟩).1 (.str "A", .str "B") =
      edge_line baseAB (.str "A", .str "B") :=
  (merge_one_point_projection_cases testOps baseAB.edges "both" baseAB []
      ⟨.str "P", (-1, 0), []⟩ (.str "A", .str "B") [(0, 0), (10, 0)] (.str "P")
      (add_node baseAB (.str "P") (setAttr (setAttr [] x_key (.num (-1))) y_key (.num 0)))
      (by decide) (by decide) (by decide) (by decide) (by decide)).2 (by decide)

/-- C9: when the point does not project to the interior of the closest edge
and is exactly equidistant from both extremities, the strict comparison
`distance_to_first_extremity < distance_to_second_extremity` fails, so the
second extremity (the edge's `v` node) is chosen as the intersection node,
and the merged graph is the point connected to that second extremity. -/
theorem merge_one_point_snap_tie_chooses_second {Line : Type} [Inhabited Line]
    (ops : GeoOps Line) (eal : List ((NodeId × NodeId) × Line)) (dir : String)
    (g : GeoGraph Line) (table : SplitTable) (pr : PointRec)
    (e : NodeId × NodeId) (L : Line) (node_name : NodeId) (g1 : GeoGraph Line)
    (he : closest_edge ops eal pr.point = (e, L))
    (hname : node_name = get_new_node_unique_name g pr.index)
    (hg1 : g1 = add_node g node_name
      (setAttr (setAttr pr.attrs x_key (.num pr.point.1)) y_key (.num pr.point.2)))
    (hni : ¬ (0 < ops.project L pr.point ∧ ops.project L pr.point < ops.length L))
    (htie : ops.euclidian_distance pr.point (get_node_coordinates g1 e.1) =
            ops.euclidian_distance pr.point (get_node_coordinates g1 e.2)) :
    snap_choice ops g1 pr.point e = e.2 ∧
    (merge_one_point ops eal dir (g, table) pr).1 =
      add_point_edges ops g1 dir node_name e.2 := by
  subst hname
  subst hg1
  have hc : snap_choice ops
      (add_node g (get_new_node_unique_name g pr.index)
        (setAttr (setAttr pr.attrs x_key (.num pr.point.1)) y_key (.num pr.point.2)))
      pr.point e = e.2 := by
    unfold snap_choice
    rw [htie]
    rw [if_neg (lt_irrefl _)]
  refine ⟨hc, ?_⟩
  simp only [merge_one_point, he]
  rw [if_neg hni, hc]

/-- Node coordinates for the tie scenario: extremities `A` at (0,5) and `B`
at (0,-5) are both at euclidean (here taxicab, equal on these inputs)
distance 6 from the merged point (-1,0); the edge geometry runs from (0,0)
to (10,0), so the point projects at distance 0 (an endpoint snap). -/
def baseTie : GeoGraph TestLine :=
  { directed := false, multigraph := false,
    nodes := [(.str "A", [("x", .num 0), ("y", .num 5)]),
              (.str "B", [("x", .num 0), ("y", .num (-5))])],
    edges := [((.str "A", .str "B"), [(0, 0), (10, 0)])] }

/-- Witness for C9 at the tie scenario: the second extremity `B` is chosen. -/
theorem merge_one_point_snap_tie_chooses_second_witness :
    snap_choice testOps
        (add_node baseTie (.str "P") (setAttr (setAttr [] x_key (.num (-1))) y_key (.num 0)))
        (-1, 0) (.str "A", .str "B") = .str "B" ∧
    (merge_one_point testOps baseTie.edges "both"
        (baseTie, ([] : SplitTable)) ⟨.str "P", (-1, 0), []⟩).1 =
      add_point_edges testOps
        (add_node baseTie (.str "P") (setAttr (setAttr [] x_key (.num (-1))) y_key (.num 0)))
        "both" (.str "P") (.str "B") :=
  merge_one_point_snap_tie_chooses_second testOps baseTie.edges "both" baseTie []
    ⟨.str "P", (-1, 0), []⟩ (.str "A", .str "B") [(0, 0), (10, 0)] (.str "P")
    (add_node baseTie (.str "P") (setAttr (setAttr [] x_key (.num (-1))) y_key (.num 0)))
    (by decide) (by decide) (by decide) (by decide) (by decide)

/-! ## Claim theorems: merge_direction policy -/

theorem has_edge_add_edge_of_absent {Line : Type} {g : GeoGraph Line}
    {u v u' v' : NodeId} (l : Line) (h1 : has_edge g (u, v) = false)
    (h2 : has_edge g (u', v') = false)
    (hk : keyMatches g.directed (u, v) (u', v') = false) :
    has_edge (add_edge g u v l) (u', v') = false := by
  unfold has_edge
  rw [add_edge_of_absent l h1, add_edge_directed, List.any_append]
  unfold has_edge at h2
  rw [h2]
  simp [hk]

theorem add_edge_twice_of_absent {Line : Type} {g : GeoGraph Line}
    {u v u' v' : NodeId} (l l' : Line) (h1 : has_edge g (u, v) = false)
    (h2 : has_edge g (u', v') = false)
    (hk : keyMatches g.directed (u, v) (u', v') = false) :
    (add_edge (add_edge g u v l) u' v' l').edges =
      g.edges ++ [((u, v), l), ((u', v'), l')] := by
  rw [add_edge_of_absent l' (has_edge_add_edge_of_absent l h1 h2 hk),
    add_edge_of_absent l h1, List.append_assoc]
  rfl

/-- C5: the connection step adds, on an undirected graph, exactly one edge
point–intersection whatever the `merge_direction`; on a directed graph,
`"both"` adds point→intersection then intersection→point, `"in"` adds only
point→intersection, and any other value adds only intersection→point; each
added edge's geometry is the fresh straight segment (`LineString`) between
the two nodes' coordinates. -/
theorem add_point_edges_direction_policy {Line : Type} (ops : GeoOps Line)
    (g : GeoGraph Line) (dir : String) (n i : NodeId) (hni : n ≠ i)
    (h1 : has_edge g (n, i) = false) (h2 : has_edge g (i, n) = false) :
    (g.directed = false →
      (add_point_edges ops g dir n i).edges = g.edges ++
        [((n, i), ops.lineString (get_node_coordinates g n) (get_node_coordinates g i))]) ∧
    (g.directed = true →
      (dir = "both" →
        (add_point_edges ops g dir n i).edges = g.edges ++
          [((n, i), ops.lineString (get_node_coordinates g n) (get_node_coordinates g i)),
           ((i, n), ops.lineString (get_node_coordinates g i) (get_node_coordinates g n))]) ∧
      (dir = "in" →
        (add_point_edges ops g dir n i).edges = g.edges ++
          [((n, i), ops.lineString (get_node_coordinates g n) (get_node_coordinates g i))]) ∧
      (dir ≠ "both" → dir ≠ "in" →
        (add_point_edges ops g dir n i).edges = g.edges ++
          [((i, n), ops.lineString (get_node_coordinates g i) (get_node_coordinates g n))])) := by
  constructor
  · intro hd
    unfold add_point_edges
    rw [hd]
    simp only [Bool.false_eq_true, if_false]
    exact add_edge_of_absent _ h1
  · intro hd
    refine ⟨?_, ?_, ?_⟩
    · intro hb
      unfold add_point_edges
      rw [hd, hb]
      simp only [if_true]
      refine add_edge_twice_of_absent _ _ h1 h2 ?_
      rw [hd]
      unfold keyMatches
      simp only [Bool.not_true, Bool.false_and, Bool.or_false]
      rw [decide_eq_false]
      intro hc
      rw [Prod.ext_iff] at hc
      exact hni hc.1
    · intro hb
      unfold add_point_edges
      rw [hd, hb]
      rw [if_pos rfl, if_neg (by decide : ¬ ("in" : String) = "both"), if_pos rfl]
      exact add_edge_of_absent _ h1
    · intro hb hi
      unfold add_point_edges
      rw [hd]
      simp only [hb, hi, if_false, if_true, ite_false, ite_true]
      exact add_edge_of_absent _ h2

/-- Witness for C5: the directed Scenario-C style graph, with point node `P`
and intersection node `I`, under each of the three direction policies. -/
def dirBase : GeoGraph TestLine :=
  { directed := true, multigraph := false,
    nodes := [(.str "P", [("x", .num 5), ("y", .num 1)]),
              (.str "I", [("x", .num 5), ("y", .num 0)])],
    edges := [] }

theorem add_point_edges_direction_policy_witness :
    (add_point_edges testOps dirBase "both" (.str "P") (.str "I")).edges =
      dirBase.edges ++
      [((.str "P", .str "I"),
        testOps.lineString (get_node_coordinates dirBase (.str "P"))
          (get_node_coordinates dirBase (.str "I"))),
       ((.str "I", .str "P"),
        testOps.lineString (get_node_coordinates dirBase (.str "I"))
          (get_node_coordinates dirBase (.str "P")))] :=
  ((add_point_edges_direction_policy testOps dirBase "both" (.str "P") (.str "I")
    (by decide) (by decide) (by decide)).2 (by decide)).1 rfl

/-- C10: on a directed graph, any `merge_direction` value other than
`"both"` and `"in"` — including strings outside the documented enum — falls
into the final `else` branch and is treated as `"out"`: exactly one edge
intersection→point is added, and no validation is performed (the embedded
function is total and returns normally for every string). -/
theorem add_point_edges_unknown_direction_as_out {Line : Type} (ops : GeoOps Line)
    (g : GeoGraph Line) (dir : String) (n i : NodeId)
    (hd : g.directed = true) (hb : dir ≠ "both") (hi : dir ≠ "in")
    (h2 : has_edge g (i, n) = false) :
    (add_point_edges ops g dir n i).edges = g.edges ++
      [((i, n), ops.lineString (get_node_coordinates g i) (get_node_coordinates g n))] := by
  unfold add_point_edges
  rw [hd]
  simp only [hb, hi, if_false, if_true, ite_false, ite_true]
  exact add_edge_of_absent _ h2

/-- Witness for C10 at the unknown direction string "bogus". -/
theorem add_point_edges_unknown_direction_as_out_witness :
    (add_point_edges testOps dirBase "bogus" (.str "P") (.str "I")).edges =
      dirBase.edges ++
      [((.str "I", .str "P"),
        testOps.lineString (get_node_coordinates dirBase (.str "I"))
          (get_node_coordinates dirBase (.str "P")))] :=
  add_point_edges_unknown_direction_as_out testOps dirBase "bogus" (.str "P") (.str "I")
    (by decide) (by decide) (by decide) (by decide)

/-! ## Claim theorems: node counting -/

/-- Whether a point of the batch projects to the interior of its closest
edge (the phase-1 condition `0 < d < length`, over the fixed snapshot). -/
def interior_point {Line : Type} [Inhabited Line] (ops : GeoOps Line)
    (eal : List ((NodeId × NodeId) × Line)) (pr : PointRec) : Bool :=
  decide (0 < ops.project (closest_edge ops eal pr.point).2 pr.point ∧
    ops.project (closest_edge ops eal pr.point).2 pr.point <
      ops.length (closest_edge ops eal pr.point).2)

/-- Number of batch points with an interior projection. -/
def interior_count {Line : Type} [Inhabited Line] (ops : GeoOps Line)
    (eal : List ((NodeId × NodeId) × Line)) (batch : List PointRec) : ℕ :=
  (batch.filter (interior_point ops eal)).length

theorem merge_one_point_nodes_length {Line : Type} [Inhabited Line]
    (ops : GeoOps Line) (eal : List ((NodeId × NodeId) × Line)) (dir : String)
    (st : GeoGraph Line × SplitTable) (pr : PointRec) :
    (merge_one_point ops eal dir st pr).1.nodes.length =
      st.1.nodes.length + (if interior_point ops eal pr then 2 else 1) := by
  by_cases h : (0 < ops.project (closest_edge ops eal pr.point).2 pr.point ∧
      ops.project (closest_edge ops eal pr.point).2 pr.point <
        ops.length (closest_edge ops eal pr.point).2)
  · have hb : interior_point ops eal pr = true := by
      unfold interior_point; exact decide_eq_true h
    simp only [merge_one_point, hb, if_true]
    rw [if_pos h]
    simp only [add_point_edges_nodes]
    rw [add_node_of_fresh _ (get_new_node_unique_name_fresh _ _),
      add_node_of_fresh _ (get_new_node_unique_name_fresh _ _)]
    simp only [List.length_append, List.length_cons, List.length_nil]
  · have hb : interior_point ops eal pr = false := by
      unfold interior_point; exact decide_eq_false h
    simp only [merge_one_point, hb, Bool.false_eq_true, if_false]
    rw [if_neg h]
    simp only [add_point_edges_nodes]
    rw [add_node_of_fresh _ (get_new_node_unique_name_fresh _ _)]
    simp

theorem fold_merge_nodes_length {Line : Type} [Inhabited Line]
    (ops : GeoOps Line) (eal : List ((NodeId × NodeId) × Line)) (dir : String)
    (batch : List PointRec) :
    ∀ (g : GeoGraph Line) (table : SplitTable),
      ((batch.foldl (merge_one_point ops eal dir) (g, table)).1.nodes.length =
        g.nodes.length + batch.length + interior_count ops eal batch) := by
  induction batch with
  | nil => intro g table; simp [interior_count]
  | cons pr t ih =>
    intro g table
    rw [List.foldl_cons]
    have hstep := merge_one_point_nodes_length ops eal dir (g, table) pr
    have := ih (merge_one_point ops eal dir (g, table) pr).1
      (merge_one_point ops eal dir (g, table) pr).2
    rw [show ((merge_one_point ops eal dir (g, table) pr).1,
        (merge_one_point ops eal dir (g, table) pr).2) =
        merge_one_point ops eal dir (g, table) pr from rfl] at this
    rw [this, hstep]
    unfold interior_count
    by_cases hb : interior_point ops eal pr = true
    · simp only [List.filter_cons, hb, if_true]
      simp only [List.length_cons]
      omega
    · rw [Bool.not_eq_true] at hb
      simp only [List.filter_cons, hb, Bool.false_eq_true, if_false]
      simp only [List.length_cons]
      omega

theorem foldl_add_edge_nodes {Line : Type}
    (adds : List ((NodeId × NodeId) × Line)) :
    ∀ g : GeoGraph Line,
      (adds.foldl (fun h t => add_edge h t.1.1 t.1.2 t.2) g).nodes = g.nodes := by
  induction adds with
  | nil => intro g; rfl
  | cons a t ih =>
    intro g
    rw [List.foldl_cons, ih, add_edge_nodes]

theorem foldl_add_edge_directed {Line : Type}
    (adds : List ((NodeId × NodeId) × Line)) :
    ∀ g : GeoGraph Line,
      (adds.foldl (fun h t => add_edge h t.1.1 t.1.2 t.2) g).directed = g.directed := by
  induction adds with
  | nil => intro g; rfl
  | cons a t ih =>
    intro g
    rw [List.foldl_cons, ih, add_edge_directed]

theorem splice_edge_nodes {Line : Type} [Inhabited Line] (ops : GeoOps Line)
    (eal : List ((NodeId × NodeId) × Line)) (g : GeoGraph Line)
    (entry : (NodeId × NodeId) × List (NodeId × ℤ)) :
    (splice_edge ops eal g entry).nodes = g.nodes := by
  simp only [splice_edge]
  split
  · rw [foldl_add_edge_nodes]
    split
    · rw [remove_edge_nodes]
    · rfl
  · rfl

theorem fold_splice_nodes {Line : Type} [Inhabited Line] (ops : GeoOps Line)
    (eal : List ((NodeId × NodeId) × Line))
    (table : SplitTable) :
    ∀ g : GeoGraph Line, (table.foldl (splice_edge ops eal) g).nodes = g.nodes := by
  induction table with
  | nil => intro g; rfl
  | cons entry t ih =>
    intro g
    rw [List.foldl_cons, ih, splice_edge_nodes]

/-- C8: merging a batch of `N` points adds exactly `N` point nodes — one per
point, unconditionally — plus exactly one intersection node for each point
with an interior projection, hence at most `N` intersection nodes; phase 2
never touches the node set. -/
theorem spatial_points_merge_core_node_count {Line : Type} [Inhabited Line]
    (ops : GeoOps Line) (g : GeoGraph Line) (batch : List PointRec) (dir : String) :
    (spatial_points_merge_core ops g batch dir).nodes.length =
      g.nodes.length + batch.length + interior_count ops g.edges batch ∧
    interior_count ops g.edges batch ≤ batch.length := by
  constructor
  · unfold spatial_points_merge_core
    rw [fold_splice_nodes]
    exact fold_merge_nodes_length ops g.edges dir batch g []
  · exact List.length_filter_le _ _

/-! ## The edge splicer's chain shape (C6) -/

/-- The canonical chain of `k+1` sub-edges replacing a split edge `u → v`
with interior nodes `names` (in ascending distance order) and the `k+1`
ordered sub-segments `lines`: `u → n_1`, `n_1 → n_2`, …, `n_k → v`, each
carrying the matching sub-segment. -/
def chain_edges {Line : Type} (u v : NodeId) :
    List NodeId → List Line → List ((NodeId × NodeId) × Line)
  | [], [l] => [((u, v), l)]
  | n :: ns, l :: ls => ((u, n), l) :: chain_edges n v ns ls
  | _, _ => []

theorem split_line_chain_length {Line : Type} (ops : GeoOps Line)
    (ds : List ℤ) : ∀ (rem : Line) (prev : ℤ),
    (split_line_chain ops rem prev ds).length = ds.length + 1 := by
  induction ds with
  | nil => intro rem prev; rfl
  | cons d t ih =>
    intro rem prev
    simp only [split_line_chain, List.length_cons]
    rw [ih]

theorem chain_edges_length {Line : Type} (names : List NodeId) :
    ∀ (u v : NodeId) (lines : List Line), lines.length = names.length + 1 →
    (chain_edges u v names lines).length = names.length + 1 := by
  induction names with
  | nil =>
    intro u v lines hl
    cases lines with
    | nil => simp at hl
    | cons l ls =>
      have : ls = [] := by
        simpa using hl
      subst this
      rfl
  | cons n ns ih =>
    intro u v lines hl
    cases lines with
    | nil => simp at hl
    | cons l ls =>
      have hl' : ls.length = ns.length + 1 := by simpa using hl
      simp only [chain_edges, List.length_cons]
      rw [ih n v ls hl']

theorem keyMatches_symm_false {d : Bool} {a b : NodeId × NodeId}
    (h : keyMatches d a b = false) : keyMatches d b a = false := by
  by_contra hc
  rw [Bool.not_eq_false] at hc
  rw [keyMatches_iff] at hc
  have hab : keyMatches d a b = true := by
    rw [keyMatches_iff]
    rcases hc with hc | ⟨hd, hc⟩
    · exact Or.inl hc.symm
    · exact Or.inr ⟨hd, by rw [hc]⟩
  rw [hab] at h
  cases h

theorem foldl_add_edge_append {Line : Type} (d : Bool)
    (adds : List ((NodeId × NodeId) × Line)) :
    ∀ g : GeoGraph Line, g.directed = d →
      (∀ t ∈ adds, has_edge g t.1 = false) →
      adds.Pairwise (fun s t => keyMatches d s.1 t.1 = false) →
      (adds.foldl (fun h t => add_edge h t.1.1 t.1.2 t.2) g).edges = g.edges ++ adds := by
  induction adds with
  | nil => intro g _ _ _; simp
  | cons a rest ih =>
    intro g hd h1 h2
    rw [List.foldl_cons]
    have ha : has_edge g (a.1.1, a.1.2) = false := h1 a (List.mem_cons_self a rest)
    have hg' : (add_edge g a.1.1 a.1.2 a.2).edges = g.edges ++ [a] :=
      add_edge_of_absent a.2 ha
    have hrel : ∀ t ∈ rest, keyMatches d a.1 t.1 = false :=
      (List.pairwise_cons.mp h2).1
    have h1' : ∀ t ∈ rest, has_edge (add_edge g a.1.1 a.1.2 a.2) t.1 = false := by
      intro t ht
      unfold has_edge
      rw [hg', add_edge_directed, List.any_append]
      have hgt : g.edges.any (fun p => keyMatches g.directed p.1 t.1) = false :=
        h1 t (List.mem_cons_of_mem a ht)
      rw [hgt]
      simp only [List.any_cons, List.any_nil, Bool.false_or, Bool.or_false]
      rw [hd]
      exact hrel t ht
    rw [ih (add_edge g a.1.1 a.1.2 a.2) (by rw [add_edge_directed]; exact hd) h1'
      (List.pairwise_cons.mp h2).2, hg', List.append_assoc]
    rfl

instance : IsTotal (NodeId × ℤ) (fun a b => a.2 ≤ b.2) :=
  ⟨fun a b => le_total a.2 b.2⟩

instance : IsTrans (NodeId × ℤ) (fun a b => a.2 ≤ b.2) :=
  ⟨fun _ _ _ h h' => le_trans h h'⟩

/-- The splicer's additions — first edge, last edge, then the middle edges
in index order — are a permutation of the canonical chain. -/
theorem splice_additions_perm {Line : Type} [Inhabited Line]
    (sorted : List (NodeId × ℤ)) :
    ∀ (u v : NodeId) (lines : List Line), sorted ≠ [] →
      lines.length = sorted.length + 1 →
    List.Perm
      ([((u, (sorted.getD 0 default).1), lines.getD 0 default),
        (((sorted.getD (sorted.length - 1) default).1, v), lines.getD sorted.length default)]
       ++ (List.range (sorted.length - 1)).map (fun i =>
            (((sorted.getD i default).1, (sorted.getD (i + 1) default).1),
             lines.getD (i + 1) default)))
      (chain_edges u v (sorted.map (fun q => q.1)) lines) := by
  induction sorted with
  | nil => intro u v lines hne _; cases hne rfl
  | cons a rest ih =>
    intro u v lines hne hl
    cases rest with
    | nil =>
      cases lines with
      | nil => simp at hl
      | cons l0 ls =>
        cases ls with
        | nil => simp at hl
        | cons l1 ls2 =>
          have hls2 : ls2 = [] := by simpa using hl
          subst hls2
          simp only [List.map_cons, List.map_nil, chain_edges, List.length_cons,
            List.length_nil, List.range_zero, List.map_nil, List.append_nil,
            List.getD_cons_zero, List.getD_cons_succ]
          exact List.Perm.refl _
    | cons b rest2 =>
      cases lines with
      | nil => simp at hl
      | cons l0 ls =>
        have hl' : ls.length = (b :: rest2).length + 1 := by simpa using hl
        have hrec := ih a.1 v ls (by simp) hl'
        have hrange : List.range ((a :: b :: rest2).length - 1) =
            0 :: (List.range ((b :: rest2).length - 1)).map (fun i => i + 1) := by
          simp only [List.length_cons]
          rw [Nat.add_sub_cancel, Nat.add_sub_cancel, List.range_succ_eq_map]
        rw [hrange]
        simp only [List.map_cons, List.map_map, List.getD_cons_zero,
          List.getD_cons_succ, List.length_cons, Nat.add_sub_cancel]
        refine List.Perm.trans ?_ (List.Perm.cons ((u, a.1), l0) hrec)
        simp only [List.length_cons, Nat.add_sub_cancel, List.getD_cons_succ] at hrec ⊢
        refine List.Perm.cons _ ?_
        exact List.Perm.swap _ _ _

/-- C6: for an edge `e = (u, v)` with `k` recorded split requests `reqs`,
the splicer sorts the intersection nodes by ascending distance-along-line
(`sorted` is an ascending permutation of `reqs`), removes `e` at most once
(`g1` is the graph with `e` removed when present, untouched otherwise), and
adds exactly the `k+1` edges of the chain `u → n_1 → … → n_k → v` — each
carrying the corresponding ordered sub-segment of the snapshot line and
running in `e`'s original direction — so the resulting edge set is a
permutation of `g1`'s edges followed by the chain.  The freshness
hypotheses say the chain's `k+1` edges are not already present and are
pairwise distinct as keys, which holds in the merge because the
intersection-node names are freshly generated. -/
theorem splice_edge_sorted_chain {Line : Type} [Inhabited Line]
    (ops : GeoOps Line) (eal : List ((NodeId × NodeId) × Line)) (g : GeoGraph Line)
    (e : NodeId × NodeId) (reqs : List (NodeId × ℤ))
    (sorted : List (NodeId × ℤ)) (L0 : Line) (lines : List Line)
    (K : List ((NodeId × NodeId) × Line)) (g1 : GeoGraph Line)
    (hso : sorted = reqs.insertionSort (fun a b => a.2 ≤ b.2))
    (hL0 : L0 = ((eal.find? (fun p => p.1 = e)).map (fun p => p.2)).getD default)
    (hlines : lines = split_line_chain ops L0 0 (sorted.map (fun q => q.2)))
    (hK : K = chain_edges e.1 e.2 (sorted.map (fun q => q.1)) lines)
    (hg1 : g1 = if has_edge g e then remove_edge g e else g)
    (hne : reqs ≠ [])
    (hK1 : ∀ c ∈ K, has_edge g1 c.1 = false)
    (hK2 : K.Pairwise (fun s t => keyMatches g.directed s.1 t.1 = false)) :
    (splice_edge ops eal g (e, reqs)).nodes = g.nodes ∧
    sorted.Perm reqs ∧
    List.Sorted (fun a b : NodeId × ℤ => a.2 ≤ b.2) sorted ∧
    K.length = reqs.length + 1 ∧
    (splice_edge ops eal g (e, reqs)).edges.Perm (g1.edges ++ K) := by
  subst hK
  subst hlines
  subst hL0
  subst hso
  subst hg1
  have hsp : (reqs.insertionSort (fun a b => a.2 ≤ b.2)).Perm reqs :=
    List.perm_insertionSort _ reqs
  have hso' : reqs.insertionSort (fun a b => a.2 ≤ b.2) ≠ [] := by
    intro hcon
    rw [hcon] at hsp
    exact hne (List.perm_nil.mp hsp.symm)
  have hlen : (split_line_chain ops
      ((((eal.find? (fun p => p.1 = e)).map (fun p => p.2)).getD default)) 0
      ((reqs.insertionSort (fun a b => a.2 ≤ b.2)).map (fun q => q.2))).length =
      (reqs.insertionSort (fun a b => a.2 ≤ b.2)).length + 1 := by
    rw [split_line_chain_length]
    simp
  have hpermAK := splice_additions_perm (reqs.insertionSort (fun a b => a.2 ≤ b.2))
    e.1 e.2
    (split_line_chain ops
      ((((eal.find? (fun p => p.1 = e)).map (fun p => p.2)).getD default)) 0
      ((reqs.insertionSort (fun a b => a.2 ≤ b.2)).map (fun q => q.2)))
    hso' hlen
  refine ⟨splice_edge_nodes ops eal g (e, reqs), hsp,
    List.sorted_insertionSort _ reqs, ?_, ?_⟩
  · rw [chain_edges_length _ _ _ _ (by rw [hlen]; simp)]
    rw [List.length_map, hsp.length_eq]
  · have hpos : 0 < reqs.length := List.length_pos.mpr hne
    simp only [splice_edge]
    rw [if_pos hpos]
    have hdir : (if has_edge g e then remove_edge g e else g).directed = g.directed := by
      split



      · rw [remove_edge_directed]
      · rfl
    rw [foldl_add_edge_append g.directed _ _ hdir
      (fun t ht => hK1 t (hpermAK.mem_iff.mp ht))
      ((hpermAK.pairwise_iff (fun h => keyMatches_symm_false h)).mpr hK2)]
    exact List.Perm.append_left _ hpermAK

/-- Witness for C6 at the spec's Scenario D: two split requests at distances
7 and 3 on the length-10 edge (A,B); the splicer sorts them ascending,
removes the edge once and replaces it by the chain A → R → Q → B with
sub-segments of lengths 3, 4, 3. -/
theorem splice_edge_sorted_chain_witness :
    (splice_edge testOps baseAB.edges baseAB
        ((.str "A", .str "B"),
         [(.inter (.str "Q"), 7), (.inter (.str "R"), 3)])).nodes = baseAB.nodes ∧
    ([((NodeId.inter (.str "R") : NodeId), (3 : ℤ)), (.inter (.str "Q"), 7)]).Perm
      [(.inter (.str "Q"), 7), (.inter (.str "R"), 3)] ∧
    List.Sorted (fun a b : NodeId × ℤ => a.2 ≤ b.2)
      [((NodeId.inter (.str "R") : NodeId), (3 : ℤ)), (.inter (.str "Q"), 7)] ∧
    ([(((NodeId.str "A" : NodeId), (NodeId.inter (.str "R") : NodeId)),
        ([((0 : ℤ), (0 : ℤ)), (3, 0)] : TestLine)),
      ((.inter (.str "R"), .inter (.str "Q")), [(3, 0), (7, 0)]),
      ((.inter (.str "Q"), .str "B"), [(7, 0), (10, 0)])]).length =
      ([((NodeId.inter (.str "Q") : NodeId), (7 : ℤ)), (.inter (.str "R"), 3)]).length + 1 ∧
    (splice_edge testOps baseAB.edges baseAB
        ((.str "A", .str "B"),
         [(.inter (.str "Q"), 7), (.inter (.str "R"), 3)])).edges.Perm
      (({ directed := false, multigraph := false, nodes := baseAB.nodes,
          edges := [] } : GeoGraph TestLine).edges ++
       [(((NodeId.str "A" : NodeId), (NodeId.inter (.str "R") : NodeId)),
          ([((0 : ℤ), (0 : ℤ)), (3, 0)] : TestLine)),
        ((.inter (.str "R"), .inter (.str "Q")), [(3, 0), (7, 0)]),
        ((.inter (.str "Q"), .str "B"), [(7, 0), (10, 0)])]) :=
  splice_edge_sorted_chain testOps baseAB.edges baseAB (.str "A", .str "B")
    [(.inter (.str "Q"), 7), (.inter (.str "R"), 3)]
    [(.inter (.str "R"), 3), (.inter (.str "Q"), 7)]
    [(0, 0), (10, 0)]
    [[(0, 0), (3, 0)], [(3, 0), (7, 0)], [(7, 0), (10, 0)]]
    [((.str "A", .inter (.str "R")), [(0, 0), (3, 0)]),
     ((.inter (.str "R"), .inter (.str "Q")), [(3, 0), (7, 0)]),
     ((.inter (.str "Q"), .str "B"), [(7, 0), (10, 0)])]
    { directed := false, multigraph := false, nodes := baseAB.nodes, edges := [] }
    (by decide) (by decide) (by decide) (by decide) (by decide) (by decide)
    (by decide) (by decide)

end Geonetworkx
